import Mathlib

/-!
Verification of the GStreamer → WebRTC bridge (`webrtc/gst/gst.go`):
the pipeline registry, session creation (`CreatePipeline`), lifecycle
(`Start`/`Stop`) and the buffer-arrival handler
(`goHandlePipelineBuffer`), including its float32 sample-count
arithmetic.

The Go handler computes
  `samples = uint32(clockRate * (float32(duration) / 1000000000))`
where every operation is an IEEE-754 binary32 operation rounded to
nearest, ties to even (as the Go language specification requires), and
the final `uint32` conversion truncates the fractional part.  We model
binary32 values exactly: a value is an integer fraction, and each float
operation is the exact rational operation followed by rounding of the
result to 24 bits of mantissa.  All values reached by the handler's
arithmetic on `C.int` durations lie well inside the binary32 normal
range, so neither subnormals nor overflow arise.
-/

namespace Gst

/-! ### Codec name constants (the values of `webrtc.VP8`, `webrtc.VP9`,
`webrtc.H264`, `webrtc.Opus`, `webrtc.G722` in pion/webrtc v2) -/

def VP8 : String := "VP8"

def VP9 : String := "VP9"

def H264 : String := "H264"

def Opus : String := "opus"

def G722 : String := "G722"

/-- `videoClockRate = 90000` from the source. -/
def videoClockRate : ℕ := 90000

/-- `audioClockRate = 48000` from the source. -/
def audioClockRate : ℕ := 48000

/-! ### Exact binary32 rounding on integer fractions -/

/-- An exact rational value `num / den` (`den` is kept positive by
construction at every use site). -/
structure Frac where
  num : ℤ
  den : ℕ
deriving DecidableEq, Repr

/-- Fuel-driven base-2 logarithm on ℕ: `log2f fuel n = ⌊log₂ n⌋` for
`1 ≤ n < 2 ^ fuel`; structural recursion so the kernel reduces it. -/
def log2f : ℕ → ℕ → ℕ
  | 0, _ => 0
  | fuel + 1, n => if n ≤ 1 then 0 else log2f fuel (n / 2) + 1

/-- `⌊log₂ (a / b)⌋` for positive naturals `a`, `b` below `2 ^ 64`:
with `la = ⌊log₂ a⌋` and `lb = ⌊log₂ b⌋`, the result is `la - lb` when
`a / b ≥ 2 ^ (la - lb)` (cross-multiplied so everything stays in ℕ) and
`la - lb - 1` otherwise. -/
def fracFloorLog2 (a b : ℕ) : ℤ :=
  let la := log2f 64 a
  let lb := log2f 64 b
  if b * 2 ^ la ≤ a * 2 ^ lb then (la : ℤ) - lb else (la : ℤ) - lb - 1

/-- Round the nonnegative fraction `A / B` (`B ≠ 0`) to the nearest
natural number, ties to even. -/
def rndHalfEven (A B : ℕ) : ℕ :=
  let q := A / B
  let r := A % B
  if 2 * r < B then q
  else if B < 2 * r then q + 1
  else if q % 2 = 0 then q else q + 1

/-- Binary32 mantissa and exponent of the positive fraction `a / b`:
returns `(m, e)` with the rounded value equal to `m * 2 ^ e`,
`m` obtained by round-to-nearest-even at 24 significant bits. -/
def f32mantExp (a b : ℕ) : ℕ × ℤ :=
  let e0 := fracFloorLog2 a b
  let s : ℤ := 23 - e0
  let A := if 0 ≤ s then a * 2 ^ s.toNat else a
  let B := if 0 ≤ s then b else b * 2 ^ (-s).toNat
  (rndHalfEven A B, e0 - 23)

/-- Round an exact fraction to the nearest binary32 value (result again
as an exact fraction). -/
def f32round (f : Frac) : Frac :=
  if f.num = 0 then ⟨0, 1⟩
  else
    let me := f32mantExp f.num.natAbs f.den
    let mag : Frac :=
      if 0 ≤ me.2 then ⟨(me.1 : ℤ) * 2 ^ me.2.toNat, 1⟩
      else ⟨(me.1 : ℤ), 2 ^ (-me.2).toNat⟩
    if f.num < 0 then ⟨-mag.num, mag.den⟩ else mag

/-! ### The sample-count computation of `goHandlePipelineBuffer` -/

/-- `uint32(rate * (float32(duration) / 1000000000))` with binary32
semantics: convert the duration to float32, divide by the (exactly
representable) constant `1000000000`, multiply by the (exactly
representable) clock rate, then truncate toward zero into `uint32`
(the `% 2 ^ 32` and the clamp of `Int.toNat` only concern values for
which Go leaves the conversion unspecified; every value in the claims
is a small nonnegative one). -/
def computeSamplesWithRate (rate : ℕ) (duration : ℤ) : ℕ :=
  let d32 := f32round ⟨duration, 1⟩
  let q := f32round ⟨d32.num, d32.den * 1000000000⟩
  let s := f32round ⟨(rate : ℤ) * q.num, q.den⟩
  (s.num.tdiv s.den).toNat % 2 ^ 32

/-- The clock rate the handler selects: `audioClockRate` iff the
session's codec name equals `webrtc.Opus`, `videoClockRate` for every
other codec name (the `else` branch of the source). -/
def clockRateFor (codecName : String) : ℕ :=
  if codecName = Opus then audioClockRate else videoClockRate

/-- The sample count computed by `goHandlePipelineBuffer` for a session
with the given codec name. -/
def computeSamples (codecName : String) (duration : ℤ) : ℕ :=
  computeSamplesWithRate (clockRateFor codecName) duration

/-! ### Pipeline sessions and the registry

The Go source keeps `var pipelines = make(map[int]*Pipeline)` guarded by
`pipelinesLock`; all registry accesses happen under the lock, so the
registry evolves by atomic operations and we model it as an association
list with Go-map insert/lookup semantics.  The opaque
`*C.GstElement` handle is identified by the description string it was
built from; `*webrtc.Track` handles are opaque identifiers. -/

/-- The `Pipeline` struct of the source (its `Pipeline *C.GstElement`
field appears as the description the native object was created from). -/
structure Pipeline where
  handle : String
  tracks : List ℕ
  id : ℕ
  codecName : String
deriving DecidableEq, Repr

/-- The `pipelines` map, as an association list. -/
abbrev Registry := List (ℕ × Pipeline)

/-- Go-map lookup `pipelines[id]`. -/
def lookupReg (reg : Registry) (id : ℕ) : Option Pipeline :=
  match reg with
  | [] => none
  | (k, p) :: rest => if k = id then some p else lookupReg rest id

/-- Go-map assignment `pipelines[k] = p`: replaces an existing binding,
otherwise adds one. -/
def mapInsert (reg : Registry) (k : ℕ) (p : Pipeline) : Registry :=
  match reg with
  | [] => [(k, p)]
  | (k', p') :: rest => if k' = k then (k, p) :: rest else (k', p') :: mapInsert rest k p

/-! ### CreatePipeline -/

/-- The `switch codecName` of `CreatePipeline`: the full pipeline
description for a recognised codec, `none` for the `default:` branch
(which panics). -/
def buildPipelineStr (codecName pipelineSrc : String) : Option String :=
  let sink := "appsink name=appsink"
  if codecName = VP8 then
    some (pipelineSrc ++ " ! vp8enc error-resilient=partitions keyframe-max-dist=10 auto-alt-ref=true cpu-used=5 deadline=1 ! " ++ sink)
  else if codecName = VP9 then
    some (pipelineSrc ++ " ! vp9enc ! " ++ sink)
  else if codecName = H264 then
    some (pipelineSrc ++ " ! video/x-raw,format=I420 ! x264enc bframes=0 speed-preset=veryfast key-int-max=60 ! video/x-h264,stream-format=byte-stream ! " ++ sink)
  else if codecName = Opus then
    some (pipelineSrc ++ " ! opusenc ! " ++ sink)
  else if codecName = G722 then
    some (pipelineSrc ++ " ! avenc_g722 ! " ++ sink)
  else none

/-- Outcome of `CreatePipeline`: either a new registry plus the returned
session, or a panic, which leaves the registry as it was. -/
inductive CreateResult where
  | ok (reg : Registry) (p : Pipeline)
  | panicked (reg : Registry) (msg : String)
deriving DecidableEq, Repr

/-- `CreatePipeline(codecName, tracks, pipelineSrc)`: resolve the codec
(panicking on an unknown one before touching the registry), build the
session with `id = len(pipelines)`, store it under its id and return
it. -/
def CreatePipeline (reg : Registry) (codecName : String) (tracks : List ℕ)
    (pipelineSrc : String) : CreateResult :=
  match buildPipelineStr codecName pipelineSrc with
  | none => .panicked reg ("Unhandled codec " ++ codecName)
  | some str =>
      let p : Pipeline :=
        { handle := str, tracks := tracks, id := reg.length, codecName := codecName }
      .ok (mapInsert reg p.id p) p

/-- `(*Pipeline).Start` only calls `C.gstreamer_send_start_pipeline`;
it does not touch the registry. -/
def pipelineStart (reg : Registry) (_p : Pipeline) : Registry := reg

/-- `(*Pipeline).Stop` only calls `C.gstreamer_send_stop_pipeline`; it
does not touch the registry. -/
def pipelineStop (reg : Registry) (_p : Pipeline) : Registry := reg

/-! ### goHandlePipelineBuffer -/

/-- A `media.Sample`: payload bytes plus the sample count. -/
structure Sample where
  data : List ℕ
  samples : ℕ
deriving DecidableEq, Repr

/-- Result of one handler invocation: the successful track writes in
order, whether the handler panicked, and how many times `C.free(buffer)`
ran. -/
structure BufferOutcome where
  writes : List (ℕ × Sample)
  panicked : Bool
  frees : ℕ
deriving DecidableEq, Repr

/-- The `for _, t := range pipeline.tracks` loop: write the sample to
each track in order; a failing `WriteSample` panics, abandoning the rest
of the loop.  `ok t s` tells whether `t.WriteSample(s)` returns `nil`.
Returns the successful writes and whether a panic occurred. -/
def writeSamples (ok : ℕ → Sample → Bool) (s : Sample) :
    List ℕ → List (ℕ × Sample) × Bool
  | [] => ([], false)
  | t :: ts =>
      if ok t s then
        let r := writeSamples ok s ts
        ((t, s) :: r.1, r.2)
      else ([], true)

/-- `goHandlePipelineBuffer(buffer, bufferLen, duration, pipelineID)`:
look the id up under the lock; if found, compute the sample count from
the session's codec and write `{Data: buffer, Samples: samples}` to
every track (panicking on a write error, which skips the final
`C.free`); if not found, just log.  `C.free(buffer)` runs once at the
end of either non-panicking path. -/
def goHandlePipelineBuffer (ok : ℕ → Sample → Bool) (reg : Registry)
    (buffer : List ℕ) (duration : ℤ) (pipelineID : ℕ) : BufferOutcome :=
  match lookupReg reg pipelineID with
  | some pipeline =>
      let samples := computeSamples pipeline.codecName duration
      let r := writeSamples ok ⟨buffer, samples⟩ pipeline.tracks
      if r.2 then ⟨r.1, true, 0⟩ else ⟨r.1, false, 1⟩
  | none => ⟨[], false, 1⟩

/-! ### Sequential creation and registry well-formedness -/

/-- `n` successive `CreatePipeline` calls starting from the empty
registry, with the `i`-th call taking codec `codecs i`, tracks
`tracks i` and source description `srcs i` (a panicking call leaves the
registry unchanged). -/
def createN (codecs : ℕ → String) (tracks : ℕ → List ℕ) (srcs : ℕ → String) :
    ℕ → Registry
  | 0 => []
  | n + 1 =>
      match CreatePipeline (createN codecs tracks srcs n) (codecs n) (tracks n) (srcs n) with
      | .ok reg _ => reg
      | .panicked reg _ => reg

/-- Registry well-formedness: the keys are exactly `0, …, size - 1` in
order, and every stored session's `id` field equals its key. -/
def regWF (reg : Registry) : Prop :=
  reg.map Prod.fst = List.range reg.length ∧ ∀ e ∈ reg, e.2.id = e.1

/-- The codec names `CreatePipeline` accepts. -/
def supportedCodecs : List String := [VP8, VP9, H264, Opus, G722]

/-! ### Helper lemmas -/

theorem mapInsert_of_not_mem (reg : Registry) (k : ℕ) (p : Pipeline)
    (h : k ∉ reg.map Prod.fst) : mapInsert reg k p = reg ++ [(k, p)] := by
  induction reg with
  | nil => rfl
  | cons e rest ih =>
      obtain ⟨k', p'⟩ := e
      simp only [List.map_cons, List.mem_cons, not_or] at h
      simp [mapInsert, Ne.symm h.1, ih h.2]

theorem regWF_nil : regWF [] := ⟨rfl, by simp⟩

theorem length_not_mem_keys (reg : Registry) (h : regWF reg) :
    reg.length ∉ reg.map Prod.fst := by
  rw [h.1]
  simp

theorem CreatePipeline_ok_of_supported (reg : Registry) (c : String) (t : List ℕ)
    (src : String) (hc : c ∈ supportedCodecs) :
    ∃ str, buildPipelineStr c src = some str ∧
      CreatePipeline reg c t src =
        CreateResult.ok (mapInsert reg reg.length ⟨str, t, reg.length, c⟩)
          ⟨str, t, reg.length, c⟩ := by
  simp only [supportedCodecs, List.mem_cons, List.not_mem_nil, or_false] at hc
  rcases hc with rfl | rfl | rfl | rfl | rfl <;> exact ⟨_, rfl, rfl⟩

theorem regWF_insert (reg : Registry) (c : String) (t : List ℕ) (src : String)
    (reg' : Registry) (p : Pipeline) (hwf : regWF reg)
    (h : CreatePipeline reg c t src = CreateResult.ok reg' p) :
    regWF reg' ∧ p.id = reg.length ∧ reg' = reg ++ [(reg.length, p)] := by
  cases hb : buildPipelineStr c src with
  | none => simp [CreatePipeline, hb] at h
  | some str =>
      simp only [CreatePipeline, hb, CreateResult.ok.injEq] at h
      obtain ⟨h1, h2⟩ := h
      subst h1
      subst h2
      rw [mapInsert_of_not_mem reg _ _ (length_not_mem_keys reg hwf)]
      refine ⟨⟨?_, ?_⟩, rfl, rfl⟩
      · simp [hwf.1, List.range_succ]
      · intro e he
        rcases List.mem_append.mp he with h' | h'
        · exact hwf.2 e h'
        · simp only [List.mem_singleton] at h'
          subst h'
          rfl

theorem CreatePipeline_panicked_eq (reg : Registry) (c : String) (t : List ℕ)
    (src : String) (reg' : Registry) (msg : String)
    (h : CreatePipeline reg c t src = CreateResult.panicked reg' msg) : reg' = reg := by
  cases hb : buildPipelineStr c src with
  | none =>
      simp only [CreatePipeline, hb, CreateResult.panicked.injEq] at h
      exact h.1.symm
  | some str => simp [CreatePipeline, hb] at h

theorem createN_WF (codecs : ℕ → String) (tracks : ℕ → List ℕ) (srcs : ℕ → String) :
    ∀ n, (∀ i, i < n → codecs i ∈ supportedCodecs) →
      regWF (createN codecs tracks srcs n) ∧ (createN codecs tracks srcs n).length = n := by
  intro n
  induction n with
  | zero => exact fun _ => ⟨regWF_nil, rfl⟩
  | succ n ih =>
      intro hc
      obtain ⟨hwf, hlen⟩ := ih (fun i hi => hc i (Nat.lt_succ_of_lt hi))
      obtain ⟨str, _hb, hcp⟩ := CreatePipeline_ok_of_supported
        (createN codecs tracks srcs n) (codecs n) (tracks n) (srcs n)
        (hc n (Nat.lt_succ_self n))
      obtain ⟨hwf', _hid, heq⟩ := regWF_insert _ _ _ _ _ _ hwf hcp
      have hstep : createN codecs tracks srcs (n + 1) =
          createN codecs tracks srcs n ++
            [(( createN codecs tracks srcs n).length, ⟨str, tracks n, (createN codecs tracks srcs n).length, codecs n⟩)] := by
        simp only [createN, hcp]
        exact heq
      rw [hstep]
      exact ⟨heq ▸ hwf', by simp [hlen]⟩

theorem writeSamples_all_ok (ok : ℕ → Sample → Bool) (s : Sample) (ts : List ℕ)
    (h : ∀ t ∈ ts, ok t s = true) :
    writeSamples ok s ts = (ts.map (fun t => (t, s)), false) := by
  induction ts with
  | nil => rfl
  | cons t ts ih =>
      have ht : ok t s = true := h t (List.mem_cons_self t ts)
      simp [writeSamples, ht, ih (fun t' ht' => h t' (List.mem_cons_of_mem t ht'))]

theorem writeSamples_panicked_iff (ok : ℕ → Sample → Bool) (s : Sample) (ts : List ℕ) :
    (writeSamples ok s ts).2 = ts.any (fun t => !ok t s) := by
  induction ts with
  | nil => rfl
  | cons t ts ih =>
      by_cases h : ok t s <;> simp [writeSamples, h, ih]

theorem writeSamples_snd_eq (ok : ℕ → Sample → Bool) (s : Sample) (ts : List ℕ) :
    ∀ w ∈ (writeSamples ok s ts).1, w.2 = s := by
  induction ts with
  | nil => intro w hw; simp [writeSamples] at hw
  | cons t ts ih =>
      intro w hw
      by_cases h : ok t s
      · simp only [writeSamples, h, if_true] at hw
        rcases List.mem_cons.mp hw with rfl | hw'
        · rfl
        · exact ih w hw'
      · simp [writeSamples, h] at hw

theorem handler_found_eq (ok : ℕ → Sample → Bool) (reg : Registry) (buffer : List ℕ)
    (d : ℤ) (id : ℕ) (p : Pipeline) (hp : lookupReg reg id = some p) :
    goHandlePipelineBuffer ok reg buffer d id =
      if (writeSamples ok ⟨buffer, computeSamples p.codecName d⟩ p.tracks).2 then
        ⟨(writeSamples ok ⟨buffer, computeSamples p.codecName d⟩ p.tracks).1, true, 0⟩
      else
        ⟨(writeSamples ok ⟨buffer, computeSamples p.codecName d⟩ p.tracks).1, false, 1⟩ := by
  simp [goHandlePipelineBuffer, hp]

/-! ### Claim theorems -/

/-- Claim C1, counterexample: a buffer arriving for a registered G722
session is converted with the video clock rate of 90000 Hz (the
handler's `else` branch), not with 48000 Hz as the claim states for
audio codecs: a one-second G722 buffer yields 90000 samples, while the
48000 Hz computation would yield 48000. -/
theorem clockRate_g722_counterexample :
    (goHandlePipelineBuffer (fun _ _ => true) [(0, ⟨"h", [0], 0, G722⟩)] [7] 1000000000 0).writes
        = [(0, ⟨[7], 90000⟩)]
    ∧ computeSamplesWithRate audioClockRate 1000000000 = 48000
    ∧ (90000 : ℕ) ≠ 48000 := by
  decide

/-- Claim C1 (amended): for every buffer arrival whose pipelineId is
registered, the sample count delivered in every track write is computed
with clock rate 48000 Hz exactly when the session's codec name equals
`webrtc.Opus`, and with 90000 Hz for every other codec name — so the
video codecs VP8, VP9 and H264, but also G722, use 90000 Hz. -/
theorem bufferArrival_clock_rate (ok : ℕ → Sample → Bool) (reg : Registry)
    (buffer : List ℕ) (d : ℤ) (id : ℕ) (p : Pipeline)
    (hp : lookupReg reg id = some p) :
    ∀ w ∈ (goHandlePipelineBuffer ok reg buffer d id).writes,
      w.2.samples = computeSamplesWithRate
        (if p.codecName = Opus then audioClockRate else videoClockRate) d := by
  intro w hw
  rw [handler_found_eq ok reg buffer d id p hp] at hw
  have hmem : w ∈ (writeSamples ok ⟨buffer, computeSamples p.codecName d⟩ p.tracks).1 := by
    rcases h2 : (writeSamples ok ⟨buffer, computeSamples p.codecName d⟩ p.tracks).2 with _ | _ <;>
      simpa [h2] using hw
  have := writeSamples_snd_eq ok ⟨buffer, computeSamples p.codecName d⟩ p.tracks w hmem
  rw [this]
  rfl

/-- Witness for C1: the single write of a one-second G722 arrival
carries 90000 samples, the `else`-branch (video) clock-rate value. -/
theorem bufferArrival_clock_rate_witness :
    (Sample.mk [7] 90000).samples =
      computeSamplesWithRate (if G722 = Opus then audioClockRate else videoClockRate)
        1000000000 :=
  bufferArrival_clock_rate (fun _ _ => true) [(0, ⟨"h", [0], 0, G722⟩)] [7] 1000000000 0
    ⟨"h", [0], 0, G722⟩ rfl (0, ⟨[7], 90000⟩) (by decide)

/-- Claim C2, counterexample: for a VP8 session with
`durationNanos = 33_333_333` the handler computes 2999 samples, not the
3000 the claim's round-to-nearest reading predicts (the float32 product
is 2999.99975…, and the `uint32` conversion truncates); the exact
rounding of `90000 * 33333333 / 1e9` really is 3000. -/
theorem samples_vp8_counterexample :
    computeSamples VP8 33333333 = 2999
    ∧ rndHalfEven (90000 * 33333333) (10 ^ 9) = 3000
    ∧ computeSamples VP8 33333333 ≠ 3000 := by
  decide

/-- Claim C2 (amended): the handler computes the sample count as the
binary32 product `clockRate * (float32(duration) / 1e9)` truncated
toward zero by the `uint32` conversion; for an Opus session with
`durationNanos = 20_000_000` this yields exactly 960, but for a VP8
session with `durationNanos = 33_333_333` it yields 2999, not 3000. -/
theorem samples_opus_vp8 :
    computeSamples Opus 20000000 = 960 ∧ computeSamples VP8 33333333 = 2999 := by
  decide

/-- Claim C3: a buffer arrival whose pipelineId is not in the registry
panics on nothing, writes to no track, and still frees the buffer once
(the discard branch). -/
theorem bufferArrival_unknown_id (ok : ℕ → Sample → Bool) (reg : Registry)
    (buffer : List ℕ) (d : ℤ) (id : ℕ) (h : lookupReg reg id = none) :
    goHandlePipelineBuffer ok reg buffer d id = ⟨[], false, 1⟩ := by
  simp [goHandlePipelineBuffer, h]

/-- Witness for C3: arrival for id 3 on an empty registry. -/
theorem bufferArrival_unknown_id_witness :
    goHandlePipelineBuffer (fun _ _ => true) [] [1, 2] 5 3 = ⟨[], false, 1⟩ :=
  bufferArrival_unknown_id (fun _ _ => true) [] [1, 2] 5 3 rfl

/-- Claim C4: when the pipelineId is registered and every track write
succeeds, the handler delivers exactly one sample to each track of the
session, in track order, every one carrying the same payload (the input
chunk) and the same computed sample count, and frees the buffer once. -/
theorem bufferArrival_delivers_to_all (ok : ℕ → Sample → Bool) (reg : Registry)
    (buffer : List ℕ) (d : ℤ) (id : ℕ) (p : Pipeline)
    (hp : lookupReg reg id = some p)
    (hok : ∀ t ∈ p.tracks, ok t ⟨buffer, computeSamples p.codecName d⟩ = true) :
    goHandlePipelineBuffer ok reg buffer d id =
      ⟨p.tracks.map (fun t => (t, ⟨buffer, computeSamples p.codecName d⟩)), false, 1⟩ := by
  rw [handler_found_eq ok reg buffer d id p hp,
    writeSamples_all_ok ok ⟨buffer, computeSamples p.codecName d⟩ p.tracks hok]
  rfl

/-- Witness for C4: a two-track VP8 session receives the same payload
and sample count on both tracks. -/
theorem bufferArrival_delivers_to_all_witness :
    goHandlePipelineBuffer (fun _ _ => true) [(0, ⟨"h", [1, 2], 0, VP8⟩)] [9, 9]
        1000000000 0 =
      ⟨[(1, ⟨[9, 9], 90000⟩), (2, ⟨[9, 9], 90000⟩)], false, 1⟩ :=
  bufferArrival_delivers_to_all (fun _ _ => true) [(0, ⟨"h", [1, 2], 0, VP8⟩)] [9, 9]
    1000000000 0 ⟨"h", [1, 2], 0, VP8⟩ rfl (fun _ _ => rfl)

/-- Claim C5: `CreatePipeline` assigns each new session an id equal to
the registry's size at insertion, so `n` sequential creations from the
empty registry yield ids `0, …, n-1`, pairwise distinct; moreover every
operation preserves well-formedness (hence id uniqueness): a successful
creation keeps the registry well-formed, a panicking creation and
`Start`/`Stop` leave the registry untouched. -/
theorem registry_ids_unique (codecs : ℕ → String) (tracks : ℕ → List ℕ)
    (srcs : ℕ → String) (n : ℕ) (hc : ∀ i, i < n → codecs i ∈ supportedCodecs) :
    ((createN codecs tracks srcs n).map (fun e => e.2.id) = List.range n
      ∧ ((createN codecs tracks srcs n).map (fun e => e.2.id)).Nodup)
    ∧ (∀ reg c t s reg' p, regWF reg → CreatePipeline reg c t s = CreateResult.ok reg' p →
        p.id = reg.length ∧ regWF reg')
    ∧ (∀ reg c t s reg' msg, CreatePipeline reg c t s = CreateResult.panicked reg' msg →
        reg' = reg)
    ∧ (∀ reg p, pipelineStart reg p = reg ∧ pipelineStop reg p = reg) := by
  refine ⟨?_, ?_, ?_, fun reg p => ⟨rfl, rfl⟩⟩
  · obtain ⟨hwf, hlen⟩ := createN_WF codecs tracks srcs n hc
    have hids : (createN codecs tracks srcs n).map (fun e => e.2.id) =
        (createN codecs tracks srcs n).map Prod.fst :=
      List.map_congr_left (fun e he => hwf.2 e he)
    rw [hids, hwf.1, hlen]
    exact ⟨rfl, List.nodup_range n⟩
  · intro reg c t s reg' p hwf h
    obtain ⟨hwf', hid, _⟩ := regWF_insert reg c t s reg' p hwf h
    exact ⟨hid, hwf'⟩
  · intro reg c t s reg' msg h
    exact CreatePipeline_panicked_eq reg c t s reg' msg h

/-- Witness for C5: three sequential VP8 creations get ids 0, 1, 2. -/
theorem registry_ids_unique_witness :
    ((createN (fun _ => VP8) (fun _ => [0]) (fun _ => "videotestsrc") 3).map
        (fun e => e.2.id) = List.range 3
      ∧ ((createN (fun _ => VP8) (fun _ => [0]) (fun _ => "videotestsrc") 3).map
        (fun e => e.2.id)).Nodup) :=
  (registry_ids_unique (fun _ => VP8) (fun _ => [0]) (fun _ => "videotestsrc") 3
    (fun _ _ => show VP8 ∈ supportedCodecs by decide)).1

/-- Claim C6: if the pipelineId is registered and `WriteSample` fails on
some track of the session, the handler panics — the failure is surfaced
as a fatal error rather than swallowed. -/
theorem bufferArrival_write_failure_panics (ok : ℕ → Sample → Bool) (reg : Registry)
    (buffer : List ℕ) (d : ℤ) (id : ℕ) (p : Pipeline) (t : ℕ)
    (hp : lookupReg reg id = some p) (ht : t ∈ p.tracks)
    (hfail : ok t ⟨buffer, computeSamples p.codecName d⟩ = false) :
    (goHandlePipelineBuffer ok reg buffer d id).panicked = true := by
  rw [handler_found_eq ok reg buffer d id p hp]
  have h2 : (writeSamples ok ⟨buffer, computeSamples p.codecName d⟩ p.tracks).2 = true := by
    rw [writeSamples_panicked_iff]
    exact List.any_eq_true.mpr ⟨t, ht, by simp [hfail]⟩
  simp [h2]

/-- Witness for C6: a failing write on the only track of a registered
Opus session makes the handler panic. -/
theorem bufferArrival_write_failure_panics_witness :
    (goHandlePipelineBuffer (fun _ _ => false) [(0, ⟨"h", [4], 0, Opus⟩)] [1]
      20000000 0).panicked = true :=
  bufferArrival_write_failure_panics (fun _ _ => false) [(0, ⟨"h", [4], 0, Opus⟩)] [1]
    20000000 0 ⟨"h", [4], 0, Opus⟩ 4 rfl (by decide) rfl

/-- Claim C7: for a codec name outside {VP8, VP9, H264, Opus, G722},
`CreatePipeline` panics (the `default:` branch) before touching the
registry, so no session is inserted: the result is a panic carrying the
registry unchanged. -/
theorem createPipeline_unknown_codec (reg : Registry) (c : String) (t : List ℕ)
    (src : String) (hc : c ∉ supportedCodecs) :
    CreatePipeline reg c t src = CreateResult.panicked reg ("Unhandled codec " ++ c) := by
  simp only [supportedCodecs, List.mem_cons, List.not_mem_nil, or_false, not_or] at hc
  obtain ⟨h1, h2, h3, h4, h5⟩ := hc
  simp [CreatePipeline, buildPipelineStr, h1, h2, h3, h4, h5]

/-- Witness for C7: codec name "AV1" is rejected with the registry left
empty. -/
theorem createPipeline_unknown_codec_witness :
    CreatePipeline [] "AV1" [] "videotestsrc" =
      CreateResult.panicked [] ("Unhandled codec " ++ "AV1") :=
  createPipeline_unknown_codec [] "AV1" [] "videotestsrc" (by decide)

/-- Claim C8, counterexample: when a track write fails, the handler
panics inside the write loop and never reaches `C.free(buffer)` (the
free is not deferred), so on the failure path the buffer is released
zero times, not once as the claim states. -/
theorem buffer_free_counterexample :
    (goHandlePipelineBuffer (fun _ _ => false) [(0, ⟨"h", [0], 0, Opus⟩)] [1]
        20000000 0).panicked = true
    ∧ (goHandlePipelineBuffer (fun _ _ => false) [(0, ⟨"h", [0], 0, Opus⟩)] [1]
        20000000 0).frees ≠ 1 := by
  decide

/-- Claim C8 (amended): in every invocation the buffer is freed exactly
once when the handler does not panic — after all tracks are written, or
in the discard branch — and zero times when a track-write failure makes
it panic, because the panic skips the non-deferred `C.free`. -/
theorem buffer_freed_iff_no_panic (ok : ℕ → Sample → Bool) (reg : Registry)
    (buffer : List ℕ) (d : ℤ) (id : ℕ) :
    (goHandlePipelineBuffer ok reg buffer d id).frees =
      if (goHandlePipelineBuffer ok reg buffer d id).panicked then 0 else 1 := by
  unfold goHandlePipelineBuffer
  cases lookupReg reg id with
  | none => rfl
  | some p =>
      cases h2 : (writeSamples ok ⟨buffer, computeSamples p.codecName d⟩ p.tracks).2 <;>
        simp [h2]

/-- Claim C9: `Stop` only signals the native pipeline; it leaves the
registry unchanged, and a lookup of the stopped session's id still finds
the session with all its fields intact. -/
theorem stop_leaves_registry (reg : Registry) (p s : Pipeline)
    (h : lookupReg reg p.id = some s) :
    pipelineStop reg p = reg ∧ lookupReg (pipelineStop reg p) p.id = some s :=
  ⟨rfl, h⟩

/-- Witness for C9: stopping a registered Opus session keeps it
retrievable unchanged. -/
theorem stop_leaves_registry_witness :
    pipelineStop [(0, ⟨"h", [0], 0, Opus⟩)] ⟨"h", [0], 0, Opus⟩ =
        [(0, ⟨"h", [0], 0, Opus⟩)]
    ∧ lookupReg (pipelineStop [(0, ⟨"h", [0], 0, Opus⟩)] ⟨"h", [0], 0, Opus⟩)
        (Pipeline.mk "h" [0] 0 Opus).id = some ⟨"h", [0], 0, Opus⟩ :=
  stop_leaves_registry [(0, ⟨"h", [0], 0, Opus⟩)] ⟨"h", [0], 0, Opus⟩
    ⟨"h", [0], 0, Opus⟩ rfl

/-- Claim C10: for every supported codec and arbitrary source
description — empty or malformed included — `CreatePipeline` performs no
validation of the source string: it always succeeds, inserts the new
session under the fresh id `len(pipelines)`, and returns the session,
whose codec and tracks are exactly the arguments passed in. -/
theorem createPipeline_no_validation (reg : Registry) (c : String) (t : List ℕ)
    (src : String) (hc : c ∈ supportedCodecs) :
    CreatePipeline reg c t src =
      CreateResult.ok
        (mapInsert reg reg.length
          ⟨(buildPipelineStr c src).getD "", t, reg.length, c⟩)
        ⟨(buildPipelineStr c src).getD "", t, reg.length, c⟩ := by
  obtain ⟨str, hb, hcp⟩ := CreatePipeline_ok_of_supported reg c t src hc
  rw [hcp, hb]
  rfl

/-- Witness for C10: creating a VP8 session with an empty source
description succeeds and registers it under id 0. -/
theorem createPipeline_no_validation_witness :
    CreatePipeline [] VP8 [3] "" =
      CreateResult.ok
        (mapInsert [] (List.length ([] : Registry))
          ⟨(buildPipelineStr VP8 "").getD "", [3], List.length ([] : Registry), VP8⟩)
        ⟨(buildPipelineStr VP8 "").getD "", [3], List.length ([] : Registry), VP8⟩ :=
  createPipeline_no_validation [] VP8 [3] "" (by decide)

end Gst
